import Mathlib

/-!
Verification of the Resource Readiness Evaluation Engine.

The definitions below are a shallow embedding of the engine's Go sources:
the generic tree accessor (internal/pkg/client/unstructured/helpers.go),
the condition model and batch orchestrator (internal/pkg/status/status.go),
the generic evaluator (readyConditionReader) and the eleven per-kind
evaluators.  Go's untyped map[string]interface{} trees become the
inductive type Value; machine integers become unbounded Int (the engine
only compares and subtracts small counters); floating-point payloads are
never inspected by the engine, so vFloat carries no payload.
-/

/-- Untyped value tree: the shape of a resource snapshot as fetched
(map of string keys to nested values, mirroring Go interface{} data).
Go int, int32 and int64 are kept as separate constructors because
GetIntField switches on the dynamic type. -/
inductive Value where
  | vNull
  | vBool (b : Bool)
  | vInt (n : Int)
  | vInt32 (n : Int)
  | vInt64 (n : Int)
  | vFloat
  | vStr (s : String)
  | vList (xs : List Value)
  | vMap (fields : List (String × Value))

/-- A resource object: Go map[string]interface{} as an association list. -/
abbrev Obj := List (String × Value)

/-- Result of k8s.io NestedFieldNoCopy: value not found (nil error),
an accessor error (intermediate value not a map), or the found value. -/
inductive FieldResult where
  | notFound
  | fieldErr
  | found (v : Value)

/-- Embedding of apimachinery unstructured.NestedFieldNoCopy: walk the
field names through nested maps; nil stops with not-found, a non-map
intermediate value is an error, a missing key is not-found. -/
def NestedFieldNoCopy : Value → List String → FieldResult
  | v, [] => .found v
  | .vNull, _ :: _ => .notFound
  | .vMap m, f :: fs =>
    match List.lookup f m with
    | none => .notFound
    | some v => NestedFieldNoCopy v fs
  | _, _ :: _ => .fieldErr

/-- Go strings.Split(s, ".") on the character list: splits around every
dot, keeping empty segments. -/
def splitDotChars : List Char → List (List Char)
  | [] => [[]]
  | c :: rest =>
    if c = '.' then [] :: splitDotChars rest
    else
      match splitDotChars rest with
      | s :: tail => (c :: s) :: tail
      | [] => [[c]]

/-- Go strings.Split(fieldPath, ".") producing strings. -/
def splitDots (s : String) : List String :=
  (splitDotChars s.data).map (fun cs => String.mk cs)

/-- The field-path preprocessing shared by GetStringField and
GetIntField: split on dots and drop a leading empty segment
(fields[0] == "" means the path started with a dot). -/
def splitFields (fieldPath : String) : List String :=
  match splitDots fieldPath with
  | "" :: rest => rest
  | fields => fields

/-- GetStringField: return the field as a string, defaulting to
defaultValue when the path is absent, errors, or the value is not a
string. -/
def GetStringField (obj : Obj) (fieldPath : String) (defaultValue : String) : String :=
  match NestedFieldNoCopy (.vMap obj) (splitFields fieldPath) with
  | .found (.vStr s) => s
  | _ => defaultValue

/-- GetIntField: return the field as an integer (accepting int, int32,
int64), defaulting to defaultValue when the path is absent, errors, or
the value has any other type (including floating point). -/
def GetIntField (obj : Obj) (fieldPath : String) (defaultValue : Int) : Int :=
  match NestedFieldNoCopy (.vMap obj) (splitFields fieldPath) with
  | .found (.vInt n) => n
  | .found (.vInt32 n) => n
  | .found (.vInt64 n) => n
  | _ => defaultValue

/-- Check every element of a list is a map, collecting the maps; none
mirrors the per-element type error in NestedMapSlice. -/
def toMaps : List Value → Option (List Obj)
  | [] => some []
  | .vMap m :: rest => (toMaps rest).map (fun ms => m :: ms)
  | _ :: _ => none

/-- NestedMapSlice: (value, found, hasError) as in the Go source.
Not found propagates from NestedFieldNoCopy with no error; a found
value that is not a list of maps is an error with found = true. -/
def NestedMapSlice (obj : Obj) (fields : List String) : Option (List Obj) × Bool × Bool :=
  match NestedFieldNoCopy (.vMap obj) fields with
  | .notFound => (none, false, false)
  | .fieldErr => (none, false, true)
  | .found (.vList xs) =>
    match toMaps xs with
    | some ms => (some ms, true, false)
    | none => (none, true, true)
  | .found _ => (none, true, true)

/-- GetConditions: the entries under status.conditions; on error or when
absent, the empty list (the error is logged and swallowed). -/
def GetConditions (obj : Obj) : List Obj :=
  match NestedMapSlice obj ["status", "conditions"] with
  | (some cs, _, false) => cs
  | _ => []

/-- Condition type constants (ConditionType is a string type in Go). -/
def ConditionReady : String := "Ready"

/-- Settled level condition type. -/
def ConditionSettled : String := "Settled"

/-- Failed terminal condition type. -/
def ConditionFailed : String := "Failed"

/-- Completed terminal condition type. -/
def ConditionCompleted : String := "Completed"

/-- Generic condition: type, status ("True"/"False"/"Unknown"), reason.
The Go field Type is named ctype here (Type is reserved in Lean). -/
structure Condition where
  ctype : String
  status : String
  reason : String
deriving DecidableEq, Repr

/-- NewFalseCondition: condition with status False and empty reason. -/
def NewFalseCondition (ctype : String) : Condition :=
  ⟨ctype, "False", ""⟩

/-- NewCondition: condition with status True and the given reason. -/
def NewCondition (ctype : String) (reason : String) : Condition :=
  ⟨ctype, "True", reason⟩

/-- Condition.False() from the source: set the status to False. -/
def Condition.setFalse (c : Condition) : Condition :=
  { c with status := "False" }

/-- GetCondition: first condition of the given type, if any. -/
def GetCondition (cs : List Condition) (ct : String) : Option Condition :=
  cs.find? (fun c => c.ctype == ct)

/-- Decimal rendering of an integer, as Go fmt %d. -/
def istr (n : Int) : String := toString n

/-- The shared generation-mismatch condition every generation-checking
evaluator returns. -/
def genMismatchCondition : Condition :=
  ⟨ConditionReady, "False",
   "Controller has not observed the latest change. Status generation does not match with metadata"⟩

/-- CronJob evaluator alwaysReady: unconditionally Ready. -/
def alwaysReady (_ : Obj) : List Condition :=
  [⟨ConditionReady, "True", "always"⟩]

/-- StatefulSet evaluator stsConditions. -/
def stsConditions (obj : Obj) : List Condition :=
  let updateStrategy := GetStringField obj ".spec.updateStrategy.type" ""
  if updateStrategy = "ondelete" then
    [⟨ConditionReady, "True", "ondelete strategy"⟩]
  else
    let observedGeneration := GetIntField obj ".status.observedGeneration" (-1)
    let metaGeneration := GetIntField obj ".metadata.generation" (-1)
    if observedGeneration ≠ metaGeneration then
      [genMismatchCondition]
    else
      let specReplicas := GetIntField obj ".spec.replicas" 1
      let readyReplicas := GetIntField obj ".status.readyReplicas" 0
      let currentReplicas := GetIntField obj ".status.currentReplicas" 0
      let updatedReplicas := GetIntField obj ".status.updatedReplicas" 0
      let statusReplicas := GetIntField obj ".status.replicas" 0
      let partition := GetIntField obj ".spec.updateStrategy.rollingUpdate.partition" (-1)
      if specReplicas > statusReplicas then
        [⟨ConditionReady, "False",
          "Waiting for requested replicas. Replicas: " ++ istr statusReplicas ++ "/" ++ istr specReplicas⟩]
      else if specReplicas > readyReplicas then
        [⟨ConditionReady, "False",
          "Waiting for replicas to become Ready. Ready: " ++ istr readyReplicas ++ "/" ++ istr specReplicas⟩]
      else if partition ≠ -1 then
        if updatedReplicas < specReplicas - partition then
          [⟨ConditionReady, "False",
            "Waiting for partition rollout to complete. updated: " ++
              istr updatedReplicas ++ "/" ++ istr (specReplicas - partition)⟩]
        else
          [⟨ConditionReady, "True",
            "Partition rollout complete. updated: " ++ istr updatedReplicas⟩]
      else if specReplicas > currentReplicas then
        [⟨ConditionReady, "False",
          "Waiting for replicas to become current. current: " ++ istr currentReplicas ++ "/" ++ istr specReplicas⟩]
      else
        let currentRevision := GetStringField obj ".status.currentRevision" ""
        let updatedRevision := GetStringField obj ".status.updatedRevision" ""
        if currentRevision ≠ updatedRevision then
          [⟨ConditionReady, "False", "Waiting for updated revision to match currentd"⟩]
        else
          [⟨ConditionReady, "True",
            "All replicas scheduled as expected. Replicas: " ++ istr statusReplicas⟩]

/-- The conditions loop of the Deployment evaluator: either an early
return (a Progressing condition with reason ProgressDeadlineExceeded)
or the final (progress, available) flags. -/
def depLoop : List Obj → Bool → Bool → Sum (List Condition) (Bool × Bool)
  | [], progress, available => .inr (progress, available)
  | c :: rest, progress, available =>
    let status := GetStringField c ".status" ""
    let reason := GetStringField c ".reason" ""
    if GetStringField c ".type" "" = "Progressing" then
      if reason = "ProgressDeadlineExceeded" then
        .inl [⟨ConditionReady, "False", "Progress Deadline exceeded"⟩]
      else
        depLoop rest (if status = "True" ∧ reason = "NewReplicaSetAvailable" then true else progress) available
    else if GetStringField c ".type" "" = "Available" then
      depLoop rest progress (if status = "True" then true else available)
    else
      depLoop rest progress available

/-- Deployment evaluator deploymentConditions. -/
def deploymentConditions (obj : Obj) : List Condition :=
  let observedGeneration := GetIntField obj ".status.observedGeneration" (-1)
  let metaGeneration := GetIntField obj ".metadata.generation" (-1)
  if observedGeneration ≠ metaGeneration then
    [genMismatchCondition]
  else
    match depLoop (GetConditions obj) false false with
    | .inl rv => rv
    | .inr (progress, available) =>
      let specReplicas := GetIntField obj ".spec.replicas" 1
      let statusReplicas := GetIntField obj ".status.replicas" 0
      let updatedReplicas := GetIntField obj ".status.updatedReplicas" 0
      let readyReplicas := GetIntField obj ".status.readyReplicas" 0
      let availableReplicas := GetIntField obj ".status.availableReplicas" 0
      if specReplicas > updatedReplicas then
        [⟨ConditionReady, "False",
          "Waiting for all replicas to be updated. Updated: " ++ istr updatedReplicas ++ "/" ++ istr specReplicas⟩]
      else if statusReplicas > updatedReplicas then
        [⟨ConditionReady, "False",
          "Waiting for old replicas to finish termination. Pending termination: " ++
            istr (statusReplicas - updatedReplicas)⟩]
      else if updatedReplicas > availableReplicas then
        [⟨ConditionReady, "False",
          "Waiting for all replicas to be available. Available: " ++
            istr availableReplicas ++ "/" ++ istr updatedReplicas⟩]
      else if specReplicas > readyReplicas then
        [⟨ConditionReady, "False",
          "Waiting for all replicas to be ready. Ready: " ++ istr readyReplicas ++ "/" ++ istr specReplicas⟩]
      else if specReplicas > statusReplicas then
        [⟨ConditionReady, "False",
          "Waiting for all .status.replicas to be catchup. replicas: " ++
            istr statusReplicas ++ "/" ++ istr specReplicas⟩]
      else if ¬ progress then
        [⟨ConditionReady, "False", "New ReplicaSet is not available"⟩]
      else if ¬ available then
        [⟨ConditionReady, "False", "Deployment is not Available"⟩]
      else
        [⟨ConditionReady, "True",
          "Deployment is available. Replicas: " ++ istr statusReplicas⟩]

/-- The conditions loop of the ReplicaSet evaluator: early return on a
ReplicaFailure condition with status True. -/
def rsLoop : List Obj → Option (List Condition)
  | [] => none
  | c :: rest =>
    if GetStringField c ".type" "" = "ReplicaFailure" then
      if GetStringField c ".status" "" = "True" then
        some [⟨ConditionReady, "False", "Replica Failure condition. Check Pods"⟩]
      else rsLoop rest
    else rsLoop rest

/-- ReplicaSet evaluator replicasetConditions. -/
def replicasetConditions (obj : Obj) : List Condition :=
  let observedGeneration := GetIntField obj ".status.observedGeneration" (-1)
  let metaGeneration := GetIntField obj ".metadata.generation" (-1)
  if observedGeneration ≠ metaGeneration then
    [genMismatchCondition]
  else
    match rsLoop (GetConditions obj) with
    | some rv => rv
    | none =>
      let specReplicas := GetIntField obj ".spec.replicas" 1
      let statusReplicas := GetIntField obj ".status.replicas" 0
      let readyReplicas := GetIntField obj ".status.readyReplicas" 0
      let availableReplicas := GetIntField obj ".status.availableReplicas" 0
      let labelledReplicas := GetIntField obj ".status.labelledReplicas" 0
      if specReplicas = 0 ∧ labelledReplicas = 0 ∧ availableReplicas = 0 ∧ readyReplicas = 0 then
        [⟨ConditionReady, "False", "Replica is 0"⟩]
      else if specReplicas > labelledReplicas then
        [⟨ConditionReady, "False",
          "Waiting for all replicas to be fully-labeled. Labelled: " ++
            istr labelledReplicas ++ "/" ++ istr specReplicas⟩]
      else if specReplicas > availableReplicas then
        [⟨ConditionReady, "False",
          "Waiting for all replicas to be available. Available: " ++
            istr availableReplicas ++ "/" ++ istr specReplicas⟩]
      else if specReplicas > readyReplicas then
        [⟨ConditionReady, "False",
          "Waiting for all replicas to be ready. Ready: " ++ istr readyReplicas ++ "/" ++ istr specReplicas⟩]
      else
        [⟨ConditionReady, "True",
          "ReplicaSet is available. Replicas: " ++ istr statusReplicas⟩]

/-- DaemonSet evaluator daemonsetConditions. -/
def daemonsetConditions (obj : Obj) : List Condition :=
  let observedGeneration := GetIntField obj ".status.observedGeneration" (-1)
  let metaGeneration := GetIntField obj ".metadata.generation" (-1)
  if observedGeneration ≠ metaGeneration then
    [genMismatchCondition]
  else
    let desiredNumberScheduled := GetIntField obj ".status.desiredNumberScheduled" (-1)
    let currentNumberScheduled := GetIntField obj ".status.currentNumberScheduled" 0
    let updatedNumberScheduled := GetIntField obj ".status.updatedNumberScheduled" 0
    let numberAvailable := GetIntField obj ".status.numberAvailable" 0
    let numberReady := GetIntField obj ".status.numberReady" 0
    if desiredNumberScheduled = -1 then
      [⟨ConditionReady, "False", "Missing .status.desiredNumberScheduled"⟩]
    else if desiredNumberScheduled > currentNumberScheduled then
      [⟨ConditionReady, "False",
        "Waiting for desired replicas to be scheduled. Current: " ++
          istr currentNumberScheduled ++ "/" ++ istr desiredNumberScheduled⟩]
    else if desiredNumberScheduled > updatedNumberScheduled then
      [⟨ConditionReady, "False",
        "Waiting for updated replicas to be scheduled. Updated: " ++
          istr updatedNumberScheduled ++ "/" ++ istr desiredNumberScheduled⟩]
    else if desiredNumberScheduled > numberAvailable then
      [⟨ConditionReady, "False",
        "Waiting for replicas to be available. Available: " ++
          istr numberAvailable ++ "/" ++ istr desiredNumberScheduled⟩]
    else if desiredNumberScheduled > numberReady then
      [⟨ConditionReady, "False",
        "Waiting for replicas to be ready. Ready: " ++
          istr numberReady ++ "/" ++ istr desiredNumberScheduled⟩]
    else
      [⟨ConditionReady, "True",
        "All replicas scheduled as expected. Replicas: " ++ istr desiredNumberScheduled⟩]

/-- PersistentVolumeClaim evaluator pvcConditions. -/
def pvcConditions (obj : Obj) : List Condition :=
  let phase := GetStringField obj ".status.phase" "unknown"
  if phase ≠ "Bound" then
    [⟨ConditionReady, "False", "PVC is not Bound. phase: " ++ phase⟩]
  else
    [⟨ConditionReady, "True", "PVC is Bound"⟩]

/-- The conditions loop of the Pod evaluator: threads the accumulated
terminal conditions rv and the mutable readyCondition through the
entries; only Ready-typed entries change the state. -/
def podLoop (phase : String) : List Obj → List Condition → Condition → List Condition × Condition
  | [], rv, readyCondition => (rv, readyCondition)
  | c :: rest, rv, readyCondition =>
    if GetStringField c ".type" "" = "Ready" then
      let reason := GetStringField c "reason" ""
      if GetStringField c "status" "" = "True" then
        podLoop phase rest rv ⟨readyCondition.ctype, "True", reason⟩
      else
        if reason = "PodCompleted" then
          podLoop phase rest
            (rv ++ [if phase = "Succeeded" then
                      NewCondition ConditionCompleted "Pod Succeeded"
                    else
                      NewCondition ConditionFailed ("Pod phase: " ++ phase)])
            ⟨readyCondition.ctype, "True", reason⟩
        else
          podLoop phase rest rv ⟨readyCondition.ctype, "False", reason⟩
    else
      podLoop phase rest rv readyCondition

/-- Pod evaluator podConditions. -/
def podConditions (obj : Obj) : List Condition :=
  let phase := GetStringField obj ".status.phase" "unknown"
  let st := podLoop phase (GetConditions obj) [] (NewFalseCondition ConditionReady)
  let readyCondition := st.2
  let finalReady :=
    if readyCondition.reason = "" then
      { readyCondition with reason := "Phase: " ++ phase }
    else
      { readyCondition with reason := "Phase: " ++ phase ++ ", " ++ readyCondition.reason }
  st.1 ++ [finalReady]

/-- PodDisruptionBudget evaluator pdbConditions. -/
def pdbConditions (obj : Obj) : List Condition :=
  let currentHealthy := GetIntField obj ".status.currentHealthy" 0
  let desiredHealthy := GetIntField obj ".status.desiredHealthy" (-1)
  if desiredHealthy = -1 then
    [⟨ConditionReady, "False", "Missing .status.desiredHealthy"⟩]
  else if desiredHealthy > currentHealthy then
    [⟨ConditionReady, "False",
      "Budget not met. healthy replicas: " ++ istr currentHealthy ++ "/" ++ istr desiredHealthy⟩]
  else
    [⟨ConditionReady, "True",
      "Budget is met. Replicas: " ++ istr currentHealthy ++ "/" ++ istr desiredHealthy⟩]

/-- The conditions loop of the Job evaluator: early return on the first
Complete or Failed entry with status True (the message texts mirror the
source, including the succeded typo). -/
def jobLoop (completions succeeded failed : Int) : List Obj → Option (List Condition)
  | [] => none
  | c :: rest =>
    let status := GetStringField c ".status" ""
    if GetStringField c ".type" "" = "Complete" then
      if status = "True" then
        some [NewCondition ConditionReady
                ("Job Completed. succeded: " ++ istr succeeded ++ "/" ++ istr completions),
              NewCondition ConditionCompleted
                ("Job Completed. succeded: " ++ istr succeeded ++ "/" ++ istr completions)]
      else jobLoop completions succeeded failed rest
    else if GetStringField c ".type" "" = "Failed" then
      if status = "True" then
        some [NewCondition ConditionReady
                ("Job Failed. failed: " ++ istr failed ++ "/" ++ istr completions),
              NewCondition ConditionFailed
                ("Job Failed. failed: " ++ istr failed ++ "/" ++ istr completions)]
      else jobLoop completions succeeded failed rest
    else jobLoop completions succeeded failed rest

/-- Job evaluator jobConditions. -/
def jobConditions (obj : Obj) : List Condition :=
  let parallelism := GetIntField obj ".spec.parallelism" 1
  let completions := GetIntField obj ".spec.completions" parallelism
  let succeeded := GetIntField obj ".status.succeeded" 0
  let active := GetIntField obj ".status.active" 0
  let failed := GetIntField obj ".status.failed" 0
  let starttime := GetStringField obj ".status.startTime" ""
  match jobLoop completions succeeded failed (GetConditions obj) with
  | some rv => rv
  | none =>
    if starttime = "" then
      [(NewCondition ConditionReady "Job not started").setFalse]
    else
      [NewCondition ConditionReady
        ("Job in progress. success:" ++ istr succeeded ++
         ", active: " ++ istr active ++ ", failed: " ++ istr failed)]

/-- Service evaluator serviceConditions. -/
def serviceConditions (obj : Obj) : List Condition :=
  let specType := GetStringField obj ".spec.type" "ClusterIP"
  let specClusterIP := GetStringField obj ".spec.clusterIP" ""
  if specType = "LoadBalancer" then
    if specClusterIP = "" then
      [(NewCondition ConditionReady "ClusterIP not set. Service type: LoadBalancer").setFalse]
    else
      [NewCondition ConditionReady ("ClusterIP: " ++ specClusterIP)]
  else
    [NewCondition ConditionReady ("Always Ready. Service type: " ++ specType)]

/-- The conditions loop of the generic evaluator: appends one Ready
output condition per Ready-typed entry (status False mirrored as False,
anything else as True) and records whether any was seen. -/
def genLoop : List Obj → List Condition → Bool → List Condition × Bool
  | [], rv, ready => (rv, ready)
  | c :: rest, rv, ready =>
    if GetStringField c "type" "" = "Ready" then
      let reason := GetStringField c "reason" ""
      if GetStringField c "status" "" = "False" then
        genLoop rest (rv ++ [(NewCondition ConditionReady reason).setFalse]) true
      else
        genLoop rest (rv ++ [NewCondition ConditionReady reason]) true
    else
      genLoop rest rv ready

/-- Generic evaluator readyConditionReader: generation check (with the
observed generation defaulting to the meta generation), then mirror the
Ready-typed entries, else an optimistic single Ready=True. -/
def readyConditionReader (obj : Obj) : List Condition :=
  let metaGeneration := GetIntField obj ".metadata.generation" (-1)
  let observedGeneration := GetIntField obj ".status.observedGeneration" metaGeneration
  if observedGeneration ≠ metaGeneration then
    [genMismatchCondition]
  else
    let st := genLoop (GetConditions obj) [] false
    if ¬ st.2 then
      st.1 ++ [NewCondition ConditionReady "No Ready condition found"]
    else
      st.1

/-- Registry of dedicated evaluators keyed by (group, kind), the
legacyTypes map of the source. -/
def GetLegacyReadyFn (group kind : String) : Option (Obj → List Condition) :=
  match group, kind with
  | "", "Service" => some serviceConditions
  | "", "Pod" => some podConditions
  | "", "PersistentVolumeClaim" => some pvcConditions
  | "apps", "StatefulSet" => some stsConditions
  | "apps", "DaemonSet" => some daemonsetConditions
  | "apps", "Deployment" => some deploymentConditions
  | "apps", "ReplicaSet" => some replicasetConditions
  | "policy", "PodDisruptionBudget" => some pdbConditions
  | "batch", "CronJob" => some alwaysReady
  | "batch", "Job" => some jobConditions
  | _, _ => none

/-- IsReady: dispatch to the dedicated evaluator for (group, kind),
falling back to the generic evaluator.  Every Go evaluator returns a
nil error, so the result is just the condition list. -/
def IsReady (group kind : String) (obj : Obj) : List Condition :=
  match GetLegacyReadyFn group kind with
  | some fn => fn obj
  | none => readyConditionReader obj

/-- One fetched resource: its group, kind and field tree (the fetch
collaborator fills the tree; group and kind drive dispatch). -/
structure Snapshot where
  group : String
  kind : String
  obj : Obj

/-- Per-item outcome in a batch: conditions on success, the fetch or
evaluation error otherwise. -/
structure ResourceStatus (E : Type) where
  Conditions : List Condition
  Error : Option E
deriving DecidableEq, Repr

/-- Batch result: one ResourceStatus per input reference, input order. -/
structure Result (E : Type) where
  Resources : List (ResourceStatus E)
deriving DecidableEq, Repr

/-- The loop body of Status.Do: each input either failed to fetch
(Except.error) or yielded a snapshot; errored items record the error
and are collected into the error list, successful items record the
evaluated conditions. -/
def doLoop {E : Type} : List (Except E Snapshot) → List (ResourceStatus E) × List E
  | [] => ([], [])
  | .error e :: rest =>
    let st := doLoop rest
    (⟨[], some e⟩ :: st.1, e :: st.2)
  | .ok s :: rest =>
    let st := doLoop rest
    (⟨IsReady s.group s.kind s.obj, none⟩ :: st.1, st.2)

/-- Status.Do: run the batch; return the full Result and, when any item
errored, the aggregate of the individual errors in input order. -/
def Status.Do {E : Type} (items : List (Except E Snapshot)) : Result E × Option (List E) :=
  let st := doLoop items
  (⟨st.1⟩, if st.2.isEmpty then none else some st.2)

/-- A condition entry that makes the Job loop return early: type
Complete or Failed with status True. -/
def jobTerminalTrue (c : Obj) : Prop :=
  (GetStringField c ".type" "" = "Complete" ∨ GetStringField c ".type" "" = "Failed") ∧
  GetStringField c ".status" "" = "True"

instance (c : Obj) : Decidable (jobTerminalTrue c) := by
  unfold jobTerminalTrue; infer_instance

/-- The per-item ResourceStatus Status.Do records for one input. -/
def itemStatus {E : Type} (it : Except E Snapshot) : ResourceStatus E :=
  match it with
  | .error e => ⟨[], some e⟩
  | .ok s => ⟨IsReady s.group s.kind s.obj, none⟩

/-- The per-item error Status.Do collects for one input. -/
def itemErr {E : Type} (it : Except E Snapshot) : Option E :=
  match it with
  | .error e => some e
  | .ok _ => none

/-- The shared message of the Job terminal Completed pair (the succeded
typo is in the source). -/
def jobCompleteMsg (obj : Obj) : String :=
  "Job Completed. succeded: " ++ istr (GetIntField obj ".status.succeeded" 0) ++ "/" ++
    istr (GetIntField obj ".spec.completions" (GetIntField obj ".spec.parallelism" 1))

/-- The shared message of the Job terminal Failed pair. -/
def jobFailedMsg (obj : Obj) : String :=
  "Job Failed. failed: " ++ istr (GetIntField obj ".status.failed" 0) ++ "/" ++
    istr (GetIntField obj ".spec.completions" (GetIntField obj ".spec.parallelism" 1))

/-- The in-progress message of the Job evaluator. -/
def jobProgressMsg (obj : Obj) : String :=
  "Job in progress. success:" ++ istr (GetIntField obj ".status.succeeded" 0) ++
    ", active: " ++ istr (GetIntField obj ".status.active" 0) ++
    ", failed: " ++ istr (GetIntField obj ".status.failed" 0)

/-- Example resource: status.conditions has two Ready-typed entries. -/
def c1ex : Obj :=
  [("status", .vMap [("conditions", .vList
    [.vMap [("type", .vStr "Ready"), ("status", .vStr "True"), ("reason", .vStr "a")],
     .vMap [("type", .vStr "Ready"), ("status", .vStr "True"), ("reason", .vStr "b")]])])]

/-- Example StatefulSet: ondelete strategy and a generation mismatch. -/
def c2ex : Obj :=
  [("spec", .vMap [("updateStrategy", .vMap [("type", .vStr "ondelete")])]),
   ("metadata", .vMap [("generation", .vInt64 2)]),
   ("status", .vMap [("observedGeneration", .vInt64 1)])]

/-- Example resource with a plain generation mismatch. -/
def c2wex : Obj :=
  [("metadata", .vMap [("generation", .vInt64 3)]),
   ("status", .vMap [("observedGeneration", .vInt64 2)])]

/-- Example batch input: one failed fetch, one CronJob snapshot. -/
def c3items : List (Except String Snapshot) :=
  [.error "boom", .ok ⟨"batch", "CronJob", []⟩]

/-- Example Pod: a PodCompleted Ready entry followed by a second Ready
entry with another reason. -/
def c4ex : Obj :=
  [("status", .vMap [("phase", .vStr "Succeeded"),
     ("conditions", .vList
       [.vMap [("type", .vStr "Ready"), ("status", .vStr "False"), ("reason", .vStr "PodCompleted")],
        .vMap [("type", .vStr "Ready"), ("status", .vStr "False"), ("reason", .vStr "crash")]])])]

/-- Example Pod: exactly one Ready entry, PodCompleted, phase Succeeded. -/
def c4wex : Obj :=
  [("status", .vMap [("phase", .vStr "Succeeded"),
     ("conditions", .vList
       [.vMap [("type", .vStr "Ready"), ("status", .vStr "False"), ("reason", .vStr "PodCompleted")]])])]

/-- Example Job: a Failed=True entry before a Complete=True entry. -/
def c5ex : Obj :=
  [("status", .vMap [("conditions", .vList
     [.vMap [("type", .vStr "Failed"), ("status", .vStr "True")],
      .vMap [("type", .vStr "Complete"), ("status", .vStr "True")]])])]

/-- Example Job: a single Complete=True entry. -/
def c5wex : Obj :=
  [("status", .vMap [("conditions", .vList
     [.vMap [("type", .vStr "Complete"), ("status", .vStr "True")]])])]

/-- Example StatefulSet: ondelete with zero ready replicas and a
generation mismatch. -/
def c6ex : Obj :=
  [("spec", .vMap [("updateStrategy", .vMap [("type", .vStr "ondelete")]),
                   ("replicas", .vInt64 3)]),
   ("metadata", .vMap [("generation", .vInt64 5)]),
   ("status", .vMap [("observedGeneration", .vInt64 2), ("readyReplicas", .vInt64 0)])]

/-- Example Deployment: ProgressDeadlineExceeded with all replica
counts satisfied. -/
def c7ex : Obj :=
  [("status", .vMap [("conditions", .vList
     [.vMap [("type", .vStr "Progressing"), ("status", .vStr "True"),
             ("reason", .vStr "ProgressDeadlineExceeded")]]),
     ("replicas", .vInt64 1), ("updatedReplicas", .vInt64 1), ("readyReplicas", .vInt64 1),
     ("availableReplicas", .vInt64 1)]),
   ("spec", .vMap [("replicas", .vInt64 1)])]

/-- Example tree for the accessor claims: a string field, an int64
field and a float field. -/
def c8ex : Obj :=
  [("a", .vStr "x"), ("n", .vInt64 7), ("f", .vFloat)]

/-- Example custom resource: a Ready entry with status Unknown. -/
def c10ex : Obj :=
  [("status", .vMap [("conditions", .vList
     [.vMap [("type", .vStr "Ready"), ("status", .vStr "Unknown"), ("reason", .vStr "probing")]])])]

/-- An early return of the Deployment conditions loop is always the
Progress-Deadline-exceeded Ready=False condition. -/
theorem depLoop_inl (cs : List Obj) (p a : Bool) (rv : List Condition)
    (h : depLoop cs p a = .inl rv) :
    rv = [⟨ConditionReady, "False", "Progress Deadline exceeded"⟩] := by
  induction cs generalizing p a with
  | nil => exact absurd h (by simp [depLoop])
  | cons c rest ih =>
    simp only [depLoop] at h
    split at h
    · split at h
      · exact (Sum.inl.inj h).symm
      · exact ih _ _ h
    · split at h
      · exact ih _ _ h
      · exact ih _ _ h

/-- A Progressing condition with reason ProgressDeadlineExceeded makes
the Deployment conditions loop return early with Ready=False, for any
flag state. -/
theorem depLoop_pde (cs : List Obj)
    (h : ∃ c ∈ cs, GetStringField c ".type" "" = "Progressing" ∧
         GetStringField c ".reason" "" = "ProgressDeadlineExceeded") (p a : Bool) :
    depLoop cs p a = .inl [⟨ConditionReady, "False", "Progress Deadline exceeded"⟩] := by
  induction cs generalizing p a with
  | nil => simp at h
  | cons c rest ih =>
    obtain ⟨d, hd, ht, hr⟩ := h
    simp only [depLoop]
    rcases List.mem_cons.mp hd with rfl | hdrest
    · rw [if_pos ht, if_pos hr]
    · split
      · split
        · rfl
        · exact ih ⟨d, hdrest, ht, hr⟩ _ _
      · split
        · exact ih ⟨d, hdrest, ht, hr⟩ _ _
        · exact ih ⟨d, hdrest, ht, hr⟩ _ _

/-- An early return of the ReplicaSet conditions loop is always the
ReplicaFailure Ready=False condition. -/
theorem rsLoop_some (cs : List Obj) (rv : List Condition) (h : rsLoop cs = some rv) :
    rv = [⟨ConditionReady, "False", "Replica Failure condition. Check Pods"⟩] := by
  induction cs with
  | nil => exact absurd h (by simp [rsLoop])
  | cons c rest ih =>
    simp only [rsLoop] at h
    split at h
    · split at h
      · exact (Option.some.inj h).symm
      · exact ih h
    · exact ih h

/-- StatefulSet evaluator always returns one Ready condition with a
True or False status. -/
theorem stsConditions_shape (obj : Obj) :
    ∃ s r, stsConditions obj = [⟨ConditionReady, s, r⟩] ∧ (s = "True" ∨ s = "False") := by
  simp only [stsConditions, genMismatchCondition]
  repeat' split
  all_goals first
    | exact ⟨_, _, rfl, Or.inl rfl⟩
    | exact ⟨_, _, rfl, Or.inr rfl⟩

/-- Deployment evaluator always returns one Ready condition with a
True or False status. -/
theorem deploymentConditions_shape (obj : Obj) :
    ∃ s r, deploymentConditions obj = [⟨ConditionReady, s, r⟩] ∧ (s = "True" ∨ s = "False") := by
  simp only [deploymentConditions, genMismatchCondition]
  split
  · exact ⟨_, _, rfl, Or.inr rfl⟩
  · split
    · next rv heq =>
        obtain rfl := depLoop_inl _ _ _ _ heq
        exact ⟨_, _, rfl, Or.inr rfl⟩
    · repeat' split
      all_goals first
        | exact ⟨_, _, rfl, Or.inl rfl⟩
        | exact ⟨_, _, rfl, Or.inr rfl⟩

/-- ReplicaSet evaluator always returns one Ready condition with a
True or False status. -/
theorem replicasetConditions_shape (obj : Obj) :
    ∃ s r, replicasetConditions obj = [⟨ConditionReady, s, r⟩] ∧ (s = "True" ∨ s = "False") := by
  simp only [replicasetConditions, genMismatchCondition]
  split
  · exact ⟨_, _, rfl, Or.inr rfl⟩
  · split
    · next rv heq =>
        obtain rfl := rsLoop_some _ _ heq
        exact ⟨_, _, rfl, Or.inr rfl⟩
    · repeat' split
      all_goals first
        | exact ⟨_, _, rfl, Or.inl rfl⟩
        | exact ⟨_, _, rfl, Or.inr rfl⟩

/-- DaemonSet evaluator always returns one Ready condition with a True
or False status. -/
theorem daemonsetConditions_shape (obj : Obj) :
    ∃ s r, daemonsetConditions obj = [⟨ConditionReady, s, r⟩] ∧ (s = "True" ∨ s = "False") := by
  simp only [daemonsetConditions, genMismatchCondition]
  repeat' split
  all_goals first
    | exact ⟨_, _, rfl, Or.inl rfl⟩
    | exact ⟨_, _, rfl, Or.inr rfl⟩

/-- PersistentVolumeClaim evaluator always returns one Ready condition
with a True or False status. -/
theorem pvcConditions_shape (obj : Obj) :
    ∃ s r, pvcConditions obj = [⟨ConditionReady, s, r⟩] ∧ (s = "True" ∨ s = "False") := by
  simp only [pvcConditions]
  split
  · exact ⟨_, _, rfl, Or.inr rfl⟩
  · exact ⟨_, _, rfl, Or.inl rfl⟩

/-- PodDisruptionBudget evaluator always returns one Ready condition
with a True or False status. -/
theorem pdbConditions_shape (obj : Obj) :
    ∃ s r, pdbConditions obj = [⟨ConditionReady, s, r⟩] ∧ (s = "True" ∨ s = "False") := by
  simp only [pdbConditions]
  repeat' split
  all_goals first
    | exact ⟨_, _, rfl, Or.inl rfl⟩
    | exact ⟨_, _, rfl, Or.inr rfl⟩

/-- Service evaluator always returns one Ready condition with a True or
False status. -/
theorem serviceConditions_shape (obj : Obj) :
    ∃ s r, serviceConditions obj = [⟨ConditionReady, s, r⟩] ∧ (s = "True" ∨ s = "False") := by
  simp only [serviceConditions, NewCondition, Condition.setFalse]
  repeat' split
  all_goals first
    | exact ⟨_, _, rfl, Or.inl rfl⟩
    | exact ⟨_, _, rfl, Or.inr rfl⟩

/-- The Job conditions loop returns none when no entry is terminal-true. -/
theorem jobLoop_clean (completions succeeded failed : Int) (cs : List Obj)
    (h : ∀ c ∈ cs, ¬ jobTerminalTrue c) :
    jobLoop completions succeeded failed cs = none := by
  induction cs with
  | nil => rfl
  | cons c rest ih =>
    have hc := h c (List.mem_cons_self _ _)
    have hrest := fun d hd => h d (List.mem_cons_of_mem _ hd)
    simp only [jobLoop]
    split
    · next hty =>
        split
        · next hst => exact absurd ⟨Or.inl hty, hst⟩ hc
        · exact ih hrest
    · split
      · next hty =>
          split
          · next hst => exact absurd ⟨Or.inr hty, hst⟩ hc
          · exact ih hrest
      · exact ih hrest

/-- The Job conditions loop skips over a prefix with no terminal-true
entry. -/
theorem jobLoop_skip (completions succeeded failed : Int) (pre cs : List Obj)
    (h : ∀ c ∈ pre, ¬ jobTerminalTrue c) :
    jobLoop completions succeeded failed (pre ++ cs) =
      jobLoop completions succeeded failed cs := by
  induction pre with
  | nil => rfl
  | cons c rest ih =>
    have hc := h c (List.mem_cons_self _ _)
    have hrest := fun d hd => h d (List.mem_cons_of_mem _ hd)
    simp only [List.cons_append, jobLoop]
    split
    · next hty =>
        split
        · next hst => exact absurd ⟨Or.inl hty, hst⟩ hc
        · exact ih hrest
    · split
      · next hty =>
          split
          · next hst => exact absurd ⟨Or.inr hty, hst⟩ hc
          · exact ih hrest
      · exact ih hrest

/-- An early return of the Job conditions loop is a Ready/Completed or
Ready/Failed pair sharing one message, all statuses True. -/
theorem jobLoop_some (completions succeeded failed : Int) (cs : List Obj)
    (rv : List Condition) (h : jobLoop completions succeeded failed cs = some rv) :
    (∃ m, rv = [⟨ConditionReady, "True", m⟩, ⟨ConditionCompleted, "True", m⟩]) ∨
    (∃ m, rv = [⟨ConditionReady, "True", m⟩, ⟨ConditionFailed, "True", m⟩]) := by
  induction cs with
  | nil => exact absurd h (by simp [jobLoop])
  | cons c rest ih =>
    simp only [jobLoop, NewCondition] at h
    split at h
    · split at h
      · exact Or.inl ⟨_, (Option.some.inj h).symm⟩
      · exact ih h
    · split at h
      · split at h
        · exact Or.inr ⟨_, (Option.some.inj h).symm⟩
        · exact ih h
      · exact ih h

/-- The Pod conditions loop skips over entries that are not Ready-typed. -/
theorem podLoop_skip (phase : String) (pre cs : List Obj) (rv : List Condition) (rc : Condition)
    (h : ∀ c ∈ pre, GetStringField c ".type" "" ≠ "Ready") :
    podLoop phase (pre ++ cs) rv rc = podLoop phase cs rv rc := by
  induction pre generalizing rv rc with
  | nil => rfl
  | cons c rest ih =>
    have hc := h c (List.mem_cons_self _ _)
    simp only [List.cons_append, podLoop]
    rw [if_neg hc]
    exact ih _ _ (fun d hd => h d (List.mem_cons_of_mem _ hd))

/-- Invariant of the Pod conditions loop: the running ready condition
keeps its type and only ever has a True or False status (or its initial
one), and everything added to the output is a True-status terminal
(Completed or Failed) condition. -/
theorem podLoop_inv (phase : String) (cs : List Obj) (rv : List Condition) (rc : Condition) :
    (podLoop phase cs rv rc).2.ctype = rc.ctype ∧
    ((podLoop phase cs rv rc).2.status = "True" ∨ (podLoop phase cs rv rc).2.status = "False" ∨
      (podLoop phase cs rv rc).2.status = rc.status) ∧
    ∀ c ∈ (podLoop phase cs rv rc).1,
      c ∈ rv ∨ (c.status = "True" ∧ (c.ctype = ConditionCompleted ∨ c.ctype = ConditionFailed)) := by
  induction cs generalizing rv rc with
  | nil => exact ⟨rfl, Or.inr (Or.inr rfl), fun c hc => Or.inl hc⟩
  | cons c rest ih =>
    simp only [podLoop]
    split
    · split
      · obtain ⟨h1, h2, h3⟩ := ih rv ⟨rc.ctype, "True", GetStringField c "reason" ""⟩
        refine ⟨h1, ?_, h3⟩
        rcases h2 with h | h | h
        · exact Or.inl h
        · exact Or.inr (Or.inl h)
        · exact Or.inl h
      · split
        · obtain ⟨h1, h2, h3⟩ :=
            ih (rv ++ [if phase = "Succeeded" then
                         NewCondition ConditionCompleted "Pod Succeeded"
                       else
                         NewCondition ConditionFailed ("Pod phase: " ++ phase)])
               ⟨rc.ctype, "True", GetStringField c "reason" ""⟩
          refine ⟨h1, ?_, ?_⟩
          · rcases h2 with h | h | h
            · exact Or.inl h
            · exact Or.inr (Or.inl h)
            · exact Or.inl h
          · intro d hd
            rcases h3 d hd with hmem | hterm
            · rcases List.mem_append.mp hmem with hmem2 | hmem2
              · exact Or.inl hmem2
              · refine Or.inr ?_
                have hd2 := List.mem_singleton.mp hmem2
                subst hd2
                split
                · exact ⟨rfl, Or.inl rfl⟩
                · exact ⟨rfl, Or.inr rfl⟩
            · exact Or.inr hterm
        · obtain ⟨h1, h2, h3⟩ := ih rv ⟨rc.ctype, "False", GetStringField c "reason" ""⟩
          refine ⟨h1, ?_, h3⟩
          rcases h2 with h | h | h
          · exact Or.inl h
          · exact Or.inr (Or.inl h)
          · exact Or.inr (Or.inl h)
    · exact ih rv rc

/-- The generic-evaluator loop skips over a prefix with no Ready-typed
entry. -/
theorem genLoop_skip (pre cs : List Obj) (rv : List Condition) (ready : Bool)
    (h : ∀ c ∈ pre, GetStringField c "type" "" ≠ "Ready") :
    genLoop (pre ++ cs) rv ready = genLoop cs rv ready := by
  induction pre generalizing rv ready with
  | nil => rfl
  | cons c rest ih =>
    have hc := h c (List.mem_cons_self _ _)
    simp only [List.cons_append, genLoop]
    rw [if_neg hc]
    exact ih _ _ (fun d hd => h d (List.mem_cons_of_mem _ hd))

/-- Invariant of the generic-evaluator loop: every output condition is
inherited or is Ready-typed with a True or False status. -/
theorem genLoop_inv (cs : List Obj) (rv : List Condition) (ready : Bool) :
    ∀ c ∈ (genLoop cs rv ready).1,
      c ∈ rv ∨ (c.ctype = ConditionReady ∧ (c.status = "True" ∨ c.status = "False")) := by
  induction cs generalizing rv ready with
  | nil => exact fun c hc => Or.inl hc
  | cons c rest ih =>
    simp only [genLoop]
    split
    · split
      · intro d hd
        rcases ih _ _ d hd with hmem | hready
        · rcases List.mem_append.mp hmem with hmem2 | hmem2
          · exact Or.inl hmem2
          · have hd2 := List.mem_singleton.mp hmem2
            subst hd2
            exact Or.inr ⟨rfl, Or.inr rfl⟩
        · exact Or.inr hready
      · intro d hd
        rcases ih _ _ d hd with hmem | hready
        · rcases List.mem_append.mp hmem with hmem2 | hmem2
          · exact Or.inl hmem2
          · have hd2 := List.mem_singleton.mp hmem2
            subst hd2
            exact Or.inr ⟨rfl, Or.inl rfl⟩
        · exact Or.inr hready
    · exact ih rv ready

/-- If the generic-evaluator loop reports that a Ready entry was seen,
its output is nonempty (given the invariant on the initial state). -/
theorem genLoop_flag (cs : List Obj) (rv : List Condition) (ready : Bool)
    (h : ready = true → rv ≠ []) :
    (genLoop cs rv ready).2 = true → (genLoop cs rv ready).1 ≠ [] := by
  induction cs generalizing rv ready with
  | nil => exact h
  | cons c rest ih =>
    simp only [genLoop]
    split
    · split
      · exact ih _ _ (fun _ => by simp)
      · exact ih _ _ (fun _ => by simp)
    · exact ih rv ready h

/-- Job evaluator output shapes: a Ready/Completed pair, a Ready/Failed
pair (shared message, statuses True), or a single Ready condition. -/
theorem jobConditions_shape (obj : Obj) :
    (∃ m, jobConditions obj = [⟨ConditionReady, "True", m⟩, ⟨ConditionCompleted, "True", m⟩]) ∨
    (∃ m, jobConditions obj = [⟨ConditionReady, "True", m⟩, ⟨ConditionFailed, "True", m⟩]) ∨
    (∃ s m, jobConditions obj = [⟨ConditionReady, s, m⟩] ∧ (s = "True" ∨ s = "False")) := by
  simp only [jobConditions]
  split
  · next rv heq =>
      rcases jobLoop_some _ _ _ _ _ heq with ⟨m, rfl⟩ | ⟨m, rfl⟩
      · exact Or.inl ⟨m, rfl⟩
      · exact Or.inr (Or.inl ⟨m, rfl⟩)
  · split
    · exact Or.inr (Or.inr ⟨_, _, rfl, Or.inr rfl⟩)
    · exact Or.inr (Or.inr ⟨_, _, rfl, Or.inl rfl⟩)

/-- Every condition the Pod evaluator emits has status True or False. -/
theorem podConditions_status (obj : Obj) (c : Condition) (hc : c ∈ podConditions obj) :
    c.status = "True" ∨ c.status = "False" := by
  obtain ⟨h1, h2, h3⟩ := podLoop_inv (GetStringField obj ".status.phase" "unknown")
    (GetConditions obj) [] (NewFalseCondition ConditionReady)
  simp only [podConditions] at hc
  rcases List.mem_append.mp hc with hmem | hmem
  · rcases h3 c hmem with h | h
    · exact absurd h (List.not_mem_nil c)
    · exact Or.inl h.1
  · have hc2 := List.mem_singleton.mp hmem
    subst hc2
    split
    · rcases h2 with h | h | h
      · exact Or.inl h
      · exact Or.inr h
      · exact Or.inr h
    · rcases h2 with h | h | h
      · exact Or.inl h
      · exact Or.inr h
      · exact Or.inr h

/-- The Pod evaluator emits exactly one Ready-typed condition. -/
theorem podConditions_ready_count (obj : Obj) :
    List.countP (fun c => c.ctype == ConditionReady) (podConditions obj) = 1 := by
  obtain ⟨h1, h2, h3⟩ := podLoop_inv (GetStringField obj ".status.phase" "unknown")
    (GetConditions obj) [] (NewFalseCondition ConditionReady)
  simp only [podConditions]
  rw [List.countP_append]
  have hrv : List.countP (fun c => c.ctype == ConditionReady)
      (podLoop (GetStringField obj ".status.phase" "unknown") (GetConditions obj) []
        (NewFalseCondition ConditionReady)).1 = 0 := by
    rw [List.countP_eq_zero]
    intro c hc
    rcases h3 c hc with h | ⟨_, h | h⟩
    · exact absurd h (List.not_mem_nil c)
    · simp [h, ConditionCompleted, ConditionReady]
    · simp [h, ConditionFailed, ConditionReady]
  rw [hrv]
  have hty : (if (podLoop (GetStringField obj ".status.phase" "unknown") (GetConditions obj) []
        (NewFalseCondition ConditionReady)).2.reason = "" then
      { (podLoop (GetStringField obj ".status.phase" "unknown") (GetConditions obj) []
          (NewFalseCondition ConditionReady)).2 with
        reason := "Phase: " ++ GetStringField obj ".status.phase" "unknown" }
    else
      { (podLoop (GetStringField obj ".status.phase" "unknown") (GetConditions obj) []
          (NewFalseCondition ConditionReady)).2 with
        reason := "Phase: " ++ GetStringField obj ".status.phase" "unknown" ++ ", " ++
          (podLoop (GetStringField obj ".status.phase" "unknown") (GetConditions obj) []
            (NewFalseCondition ConditionReady)).2.reason }).ctype = ConditionReady := by
    split
    · exact h1
    · exact h1
  simp [List.countP_cons, hty]

/-- Every condition the generic evaluator emits is Ready-typed with a
True or False status. -/
theorem readyConditionReader_mem (obj : Obj) (c : Condition)
    (hc : c ∈ readyConditionReader obj) :
    c.ctype = ConditionReady ∧ (c.status = "True" ∨ c.status = "False") := by
  simp only [readyConditionReader, genMismatchCondition] at hc
  split at hc
  · have := List.mem_singleton.mp hc
    subst this
    exact ⟨rfl, Or.inr rfl⟩
  · split at hc
    · rcases List.mem_append.mp hc with hmem | hmem
      · rcases genLoop_inv (GetConditions obj) [] false c hmem with h | h
        · exact absurd h (List.not_mem_nil c)
        · exact h
      · have := List.mem_singleton.mp hmem
        subst this
        exact ⟨rfl, Or.inl rfl⟩
    · rcases genLoop_inv (GetConditions obj) [] false c hc with h | h
      · exact absurd h (List.not_mem_nil c)
      · exact h

/-- The generic evaluator never returns an empty condition list. -/
theorem readyConditionReader_ne_nil (obj : Obj) : readyConditionReader obj ≠ [] := by
  simp only [readyConditionReader, genMismatchCondition]
  split
  · simp
  · split
    · simp
    · next h =>
        exact genLoop_flag (GetConditions obj) [] false (by simp) (not_not.mp h)

/-- No evaluator (dedicated or generic) returns an empty condition
list: every dispatched evaluation yields at least a Ready condition. -/
theorem IsReady_ne_nil (group kind : String) (obj : Obj) : IsReady group kind obj ≠ [] := by
  rcases h : GetLegacyReadyFn group kind with _ | fn
  · simp only [IsReady, h]
    exact readyConditionReader_ne_nil obj
  · simp only [IsReady, h]
    unfold GetLegacyReadyFn at h
    split at h
    · obtain rfl := Option.some.inj h
      simp only [serviceConditions]
      repeat' split
      all_goals simp
    · obtain rfl := Option.some.inj h
      simp only [podConditions]
      simp
    · obtain rfl := Option.some.inj h
      obtain ⟨s, r, heq, _⟩ := pvcConditions_shape obj
      simp [heq]
    · obtain rfl := Option.some.inj h
      obtain ⟨s, r, heq, _⟩ := stsConditions_shape obj
      simp [heq]
    · obtain rfl := Option.some.inj h
      obtain ⟨s, r, heq, _⟩ := daemonsetConditions_shape obj
      simp [heq]
    · obtain rfl := Option.some.inj h
      obtain ⟨s, r, heq, _⟩ := deploymentConditions_shape obj
      simp [heq]
    · obtain rfl := Option.some.inj h
      obtain ⟨s, r, heq, _⟩ := replicasetConditions_shape obj
      simp [heq]
    · obtain rfl := Option.some.inj h
      obtain ⟨s, r, heq, _⟩ := pdbConditions_shape obj
      simp [heq]
    · obtain rfl := Option.some.inj h
      simp [alwaysReady]
    · obtain rfl := Option.some.inj h
      rcases jobConditions_shape obj with ⟨m, heq⟩ | ⟨m, heq⟩ | ⟨s, m, heq, _⟩ <;> simp [heq]
    · exact absurd h (by simp)

/-- Closed form of the Status.Do loop: statuses in input order, the
error list in input order. -/
theorem doLoop_spec {E : Type} (items : List (Except E Snapshot)) :
    doLoop items = (items.map itemStatus, items.filterMap itemErr) := by
  induction items with
  | nil => rfl
  | cons it rest ih =>
    cases it <;> simp [doLoop, ih, itemStatus, itemErr]

/-- C6: for every StatefulSet snapshot with spec.updateStrategy.type
equal to "ondelete", the evaluator returns the single Ready=True
condition with reason "ondelete strategy", regardless of every other
field (including replica counts and a generation mismatch). -/
theorem sts_ondelete_always_ready (obj : Obj)
    (h : GetStringField obj ".spec.updateStrategy.type" "" = "ondelete") :
    stsConditions obj = [⟨ConditionReady, "True", "ondelete strategy"⟩] := by
  simp only [stsConditions]
  rw [if_pos h]

/-- C6 witness: a StatefulSet with ondelete strategy, zero ready
replicas and a generation mismatch is Ready=True. -/
theorem sts_ondelete_always_ready_witness :
    stsConditions c6ex = [⟨ConditionReady, "True", "ondelete strategy"⟩] :=
  sts_ondelete_always_ready c6ex rfl

/-- C7: for every Deployment snapshot that passes the generation check,
a Progressing condition with reason ProgressDeadlineExceeded forces the
returned Ready condition to status False, regardless of all replica
counts. -/
theorem deployment_progress_deadline_forces_false (obj : Obj)
    (hgen : GetIntField obj ".status.observedGeneration" (-1) =
            GetIntField obj ".metadata.generation" (-1))
    (hpde : ∃ c ∈ GetConditions obj,
        GetStringField c ".type" "" = "Progressing" ∧
        GetStringField c ".reason" "" = "ProgressDeadlineExceeded") :
    deploymentConditions obj = [⟨ConditionReady, "False", "Progress Deadline exceeded"⟩] := by
  simp only [deploymentConditions]
  rw [if_neg (not_not_intro hgen), depLoop_pde (GetConditions obj) hpde false false]

/-- C7 witness: a Deployment whose replica counts are all satisfied is
still Ready=False under ProgressDeadlineExceeded. -/
theorem deployment_progress_deadline_forces_false_witness :
    deploymentConditions c7ex = [⟨ConditionReady, "False", "Progress Deadline exceeded"⟩] :=
  deployment_progress_deadline_forces_false c7ex rfl (by decide)

/-- C9: for every snapshot handled by the generic evaluator that passes
the generation check and whose status.conditions has no Ready-typed
entry, the result is exactly one condition: Ready=True with reason
"No Ready condition found". -/
theorem generic_no_ready_condition_default (obj : Obj)
    (hgen : GetIntField obj ".status.observedGeneration"
              (GetIntField obj ".metadata.generation" (-1)) =
            GetIntField obj ".metadata.generation" (-1))
    (hnoready : ∀ c ∈ GetConditions obj, GetStringField c "type" "" ≠ "Ready") :
    readyConditionReader obj = [⟨ConditionReady, "True", "No Ready condition found"⟩] := by
  simp only [readyConditionReader]
  rw [if_neg (not_not_intro hgen)]
  have h := genLoop_skip (GetConditions obj) [] [] false hnoready
  rw [List.append_nil] at h
  rw [h]
  simp [genLoop, NewCondition]

/-- C9 witness: a resource with no status at all (hence no conditions
and a vacuously passing generation check) yields the optimistic single
Ready=True condition. -/
theorem generic_no_ready_condition_default_witness :
    readyConditionReader ([] : Obj) = [⟨ConditionReady, "True", "No Ready condition found"⟩] :=
  generic_no_ready_condition_default ([] : Obj) rfl (by decide)

/-- C2 (amended): generation mismatch forces the single Ready=False
mismatch condition for Deployment, ReplicaSet, DaemonSet, the generic
evaluator (whose observed generation defaults to the meta generation),
and for StatefulSet unless spec.updateStrategy.type is "ondelete", in
which case the StatefulSet evaluator returns Ready=True regardless of
the generation fields. -/
theorem generation_mismatch_forces_ready_false (obj : Obj) :
    (GetStringField obj ".spec.updateStrategy.type" "" ≠ "ondelete" →
      GetIntField obj ".status.observedGeneration" (-1) ≠
        GetIntField obj ".metadata.generation" (-1) →
      stsConditions obj = [genMismatchCondition]) ∧
    (GetIntField obj ".status.observedGeneration" (-1) ≠
        GetIntField obj ".metadata.generation" (-1) →
      deploymentConditions obj = [genMismatchCondition] ∧
      replicasetConditions obj = [genMismatchCondition] ∧
      daemonsetConditions obj = [genMismatchCondition]) ∧
    (GetIntField obj ".status.observedGeneration" (GetIntField obj ".metadata.generation" (-1)) ≠
        GetIntField obj ".metadata.generation" (-1) →
      readyConditionReader obj = [genMismatchCondition]) ∧
    (GetStringField obj ".spec.updateStrategy.type" "" = "ondelete" →
      stsConditions obj = [⟨ConditionReady, "True", "ondelete strategy"⟩]) := by
  refine ⟨?_, ?_, ?_, ?_⟩
  · intro h1 h2
    simp only [stsConditions]
    rw [if_neg h1, if_pos h2]
  · intro h2
    refine ⟨?_, ?_, ?_⟩
    · simp only [deploymentConditions]
      rw [if_pos h2]
    · simp only [replicasetConditions]
      rw [if_pos h2]
    · simp only [daemonsetConditions]
      rw [if_pos h2]
  · intro h2
    simp only [readyConditionReader]
    rw [if_pos h2]
  · intro h1
    simp only [stsConditions]
    rw [if_pos h1]

/-- C2 counterexample: a StatefulSet with ondelete strategy and a
generation mismatch returns Ready=True, so the mismatch does not force
Ready=False for every StatefulSet snapshot. -/
theorem generation_mismatch_forces_ready_false_cex :
    GetIntField c2ex ".status.observedGeneration" (-1) ≠
      GetIntField c2ex ".metadata.generation" (-1) ∧
    stsConditions c2ex = [⟨ConditionReady, "True", "ondelete strategy"⟩] := by
  exact ⟨by decide, by decide⟩

/-- C2 witness: a mismatched resource gets the mismatch condition from
the StatefulSet, Deployment and generic evaluators. -/
theorem generation_mismatch_forces_ready_false_witness :
    stsConditions c2wex = [genMismatchCondition] ∧
    deploymentConditions c2wex = [genMismatchCondition] ∧
    readyConditionReader c2wex = [genMismatchCondition] :=
  ⟨(generation_mismatch_forces_ready_false c2wex).1 (by decide) (by decide),
   ((generation_mismatch_forces_ready_false c2wex).2.1 (by decide)).1,
   (generation_mismatch_forces_ready_false c2wex).2.2.1 (by decide)⟩

/-- C8: GetStringField and GetIntField are total and never error: a
present string (resp. integer of any width) is returned as-is, and in
every other case (path absent, lookup failure, wrong type, and in
particular a floating-point value for GetIntField) the caller-supplied
default is returned. -/
theorem get_field_total_default (obj : Obj) (path : String) (ds : String) (di : Int) :
    (∀ s, NestedFieldNoCopy (.vMap obj) (splitFields path) = .found (.vStr s) →
       GetStringField obj path ds = s) ∧
    ((∀ s, NestedFieldNoCopy (.vMap obj) (splitFields path) ≠ .found (.vStr s)) →
       GetStringField obj path ds = ds) ∧
    (∀ n, (NestedFieldNoCopy (.vMap obj) (splitFields path) = .found (.vInt n) ∨
           NestedFieldNoCopy (.vMap obj) (splitFields path) = .found (.vInt32 n) ∨
           NestedFieldNoCopy (.vMap obj) (splitFields path) = .found (.vInt64 n)) →
       GetIntField obj path di = n) ∧
    ((∀ n, NestedFieldNoCopy (.vMap obj) (splitFields path) ≠ .found (.vInt n) ∧
           NestedFieldNoCopy (.vMap obj) (splitFields path) ≠ .found (.vInt32 n) ∧
           NestedFieldNoCopy (.vMap obj) (splitFields path) ≠ .found (.vInt64 n)) →
       GetIntField obj path di = di) ∧
    (NestedFieldNoCopy (.vMap obj) (splitFields path) = .found .vFloat →
       GetIntField obj path di = di) := by
  refine ⟨?_, ?_, ?_, ?_, ?_⟩
  · intro s hs
    simp [GetStringField, hs]
  · intro h
    unfold GetStringField
    split
    · next s heq => exact absurd heq (h s)
    · rfl
  · intro n hn
    rcases hn with hn | hn | hn <;> simp [GetIntField, hn]
  · intro h
    unfold GetIntField
    split
    · next n heq => exact absurd heq (h n).1
    · next n heq => exact absurd heq (h n).2.1
    · next n heq => exact absurd heq (h n).2.2
    · rfl
  · intro hf
    simp [GetIntField, hf]

/-- C8 witness: on a concrete tree a present string and int64 are
returned, and an absent path and a float fall back to the defaults. -/
theorem get_field_total_default_witness :
    GetStringField c8ex ".a" "d" = "x" ∧ GetStringField c8ex ".missing" "d" = "d" ∧
    GetIntField c8ex ".n" 0 = 7 ∧ GetIntField c8ex ".f" 0 = 0 :=
  ⟨(get_field_total_default c8ex ".a" "d" 0).1 "x" rfl,
   (get_field_total_default c8ex ".missing" "d" 0).2.1
     (fun s h => FieldResult.noConfusion
       (show FieldResult.notFound = FieldResult.found (Value.vStr s) from h)),
   (get_field_total_default c8ex ".n" "d" 0).2.2.1 7 (Or.inr (Or.inr rfl)),
   (get_field_total_default c8ex ".f" "d" 0).2.2.2.2 rfl⟩

/-- C10: every condition produced by every evaluator, dedicated or
generic, has status "True" or "False"; no evaluator emits "Unknown". -/
theorem isready_status_true_or_false (group kind : String) (obj : Obj) (c : Condition)
    (hc : c ∈ IsReady group kind obj) : c.status = "True" ∨ c.status = "False" := by
  rcases h : GetLegacyReadyFn group kind with _ | fn
  · simp only [IsReady, h] at hc
    exact (readyConditionReader_mem obj c hc).2
  · simp only [IsReady, h] at hc
    unfold GetLegacyReadyFn at h
    split at h
    · obtain rfl := Option.some.inj h
      obtain ⟨s, r, heq, hs⟩ := serviceConditions_shape obj
      rw [heq] at hc
      have hc2 := List.mem_singleton.mp hc
      subst hc2
      exact hs
    · obtain rfl := Option.some.inj h
      exact podConditions_status obj c hc
    · obtain rfl := Option.some.inj h
      obtain ⟨s, r, heq, hs⟩ := pvcConditions_shape obj
      rw [heq] at hc
      have hc2 := List.mem_singleton.mp hc
      subst hc2
      exact hs
    · obtain rfl := Option.some.inj h
      obtain ⟨s, r, heq, hs⟩ := stsConditions_shape obj
      rw [heq] at hc
      have hc2 := List.mem_singleton.mp hc
      subst hc2
      exact hs
    · obtain rfl := Option.some.inj h
      obtain ⟨s, r, heq, hs⟩ := daemonsetConditions_shape obj
      rw [heq] at hc
      have hc2 := List.mem_singleton.mp hc
      subst hc2
      exact hs
    · obtain rfl := Option.some.inj h
      obtain ⟨s, r, heq, hs⟩ := deploymentConditions_shape obj
      rw [heq] at hc
      have hc2 := List.mem_singleton.mp hc
      subst hc2
      exact hs
    · obtain rfl := Option.some.inj h
      obtain ⟨s, r, heq, hs⟩ := replicasetConditions_shape obj
      rw [heq] at hc
      have hc2 := List.mem_singleton.mp hc
      subst hc2
      exact hs
    · obtain rfl := Option.some.inj h
      obtain ⟨s, r, heq, hs⟩ := pdbConditions_shape obj
      rw [heq] at hc
      have hc2 := List.mem_singleton.mp hc
      subst hc2
      exact hs
    · obtain rfl := Option.some.inj h
      simp only [alwaysReady] at hc
      have hc2 := List.mem_singleton.mp hc
      subst hc2
      exact Or.inl rfl
    · obtain rfl := Option.some.inj h
      rcases jobConditions_shape obj with ⟨m, heq⟩ | ⟨m, heq⟩ | ⟨s, m, heq, hs⟩ <;> rw [heq] at hc
      · rcases List.mem_cons.mp hc with hc2 | hc2
        · subst hc2; exact Or.inl rfl
        · have hc3 := List.mem_singleton.mp hc2
          subst hc3; exact Or.inl rfl
      · rcases List.mem_cons.mp hc with hc2 | hc2
        · subst hc2; exact Or.inl rfl
        · have hc3 := List.mem_singleton.mp hc2
          subst hc3; exact Or.inl rfl
      · have hc2 := List.mem_singleton.mp hc
        subst hc2
        exact hs
    · exact absurd h (by simp)

/-- C10 witness: a custom resource whose Ready entry has status Unknown
is mirrored as a Ready=True condition, never Unknown. -/
theorem isready_status_true_or_false_witness :
    (⟨ConditionReady, "True", "probing"⟩ : Condition).status = "True" ∨
    (⟨ConditionReady, "True", "probing"⟩ : Condition).status = "False" :=
  isready_status_true_or_false "example.io" "Widget" c10ex
    ⟨ConditionReady, "True", "probing"⟩ (by decide)

/-- C1 (amended): every dedicated evaluator except Pod returns at most
one condition per ConditionType; the Pod evaluator returns exactly one
Ready-typed condition (but may emit one terminal condition per matching
input entry); the generic evaluator emits only Ready-typed conditions,
one per Ready-typed input entry in encounter order, so it may return
several conditions of the same type. -/
theorem evaluator_condition_type_multiplicity (obj : Obj) :
    ((serviceConditions obj).map Condition.ctype).Nodup ∧
    ((pvcConditions obj).map Condition.ctype).Nodup ∧
    ((stsConditions obj).map Condition.ctype).Nodup ∧
    ((daemonsetConditions obj).map Condition.ctype).Nodup ∧
    ((deploymentConditions obj).map Condition.ctype).Nodup ∧
    ((replicasetConditions obj).map Condition.ctype).Nodup ∧
    ((pdbConditions obj).map Condition.ctype).Nodup ∧
    ((alwaysReady obj).map Condition.ctype).Nodup ∧
    ((jobConditions obj).map Condition.ctype).Nodup ∧
    List.countP (fun c => c.ctype == ConditionReady) (podConditions obj) = 1 ∧
    ∀ c ∈ readyConditionReader obj, c.ctype = ConditionReady := by
  refine ⟨?_, ?_, ?_, ?_, ?_, ?_, ?_, ?_, ?_, podConditions_ready_count obj,
    fun c hc => (readyConditionReader_mem obj c hc).1⟩
  · obtain ⟨s, r, heq, _⟩ := serviceConditions_shape obj
    rw [heq]; simp
  · obtain ⟨s, r, heq, _⟩ := pvcConditions_shape obj
    rw [heq]; simp
  · obtain ⟨s, r, heq, _⟩ := stsConditions_shape obj
    rw [heq]; simp
  · obtain ⟨s, r, heq, _⟩ := daemonsetConditions_shape obj
    rw [heq]; simp
  · obtain ⟨s, r, heq, _⟩ := deploymentConditions_shape obj
    rw [heq]; simp
  · obtain ⟨s, r, heq, _⟩ := replicasetConditions_shape obj
    rw [heq]; simp
  · obtain ⟨s, r, heq, _⟩ := pdbConditions_shape obj
    rw [heq]; simp
  · simp [alwaysReady]
  · rcases jobConditions_shape obj with ⟨m, heq⟩ | ⟨m, heq⟩ | ⟨s, m, heq, _⟩ <;>
      rw [heq] <;> simp [ConditionReady, ConditionCompleted, ConditionFailed]

/-- C1 counterexample: on a snapshot whose status.conditions has two
Ready-typed entries, the generic evaluator returns two conditions of
type Ready, so an evaluator's output can repeat a ConditionType. -/
theorem evaluator_condition_type_multiplicity_cex :
    ¬ ((readyConditionReader c1ex).map Condition.ctype).Nodup := by decide

/-- C1 witness: the Pod evaluator emits exactly one Ready condition on
a concrete snapshot, and a concrete generic-evaluator output condition
is Ready-typed. -/
theorem evaluator_condition_type_multiplicity_witness :
    List.countP (fun c => c.ctype == ConditionReady) (podConditions c1ex) = 1 ∧
    (⟨ConditionReady, "True", "a"⟩ : Condition).ctype = ConditionReady :=
  ⟨(evaluator_condition_type_multiplicity c1ex).2.2.2.2.2.2.2.2.2.1,
   (evaluator_condition_type_multiplicity c1ex).2.2.2.2.2.2.2.2.2.2
     ⟨ConditionReady, "True", "a"⟩ (by decide)⟩

/-- C3: Status.Do returns one ResourceStatus per input in input order
(an errored item carries the error and no conditions, a fetched item
carries the evaluated conditions and no error), the aggregate error is
present exactly when some item errored and wraps the per-item errors in
input order, and every successful evaluation yields a nonempty
condition list. -/
theorem status_do_batch {E : Type} (items : List (Except E Snapshot)) :
    (Status.Do items).1.Resources = items.map itemStatus ∧
    (Status.Do items).1.Resources.length = items.length ∧
    (Status.Do items).2 =
      (if (items.filterMap itemErr).isEmpty then none else some (items.filterMap itemErr)) ∧
    ∀ group kind obj, IsReady group kind obj ≠ [] := by
  refine ⟨?_, ?_, ?_, IsReady_ne_nil⟩
  · simp [Status.Do, doLoop_spec]
  · simp [Status.Do, doLoop_spec]
  · have h := doLoop_spec items
    simp only [Status.Do]
    rw [h]

/-- C3 witness: a two-item batch with one failed fetch yields two
statuses in order and an aggregate error wrapping exactly that error. -/
theorem status_do_batch_witness :
    (Status.Do c3items).1.Resources =
      [⟨[], some "boom"⟩, ⟨[⟨ConditionReady, "True", "always"⟩], none⟩] ∧
    (Status.Do c3items).2 = some ["boom"] := by
  have h := status_do_batch c3items
  exact ⟨h.1.trans (by decide), h.2.2.1.trans (by decide)⟩

/-- The Pod conditions loop is the identity on a list with no
Ready-typed entry. -/
theorem podLoop_clean (phase : String) (cs : List Obj) (rv : List Condition) (rc : Condition)
    (h : ∀ c ∈ cs, GetStringField c ".type" "" ≠ "Ready") :
    podLoop phase cs rv rc = (rv, rc) := by
  have h2 := podLoop_skip phase cs [] rv rc h
  rw [List.append_nil] at h2
  exact h2

/-- C4 (amended): for every Pod snapshot whose status.conditions has
exactly one Ready-typed entry, with status False and reason
PodCompleted, the evaluator returns Ready=True whose reason is the
concatenation "Phase: phase, PodCompleted", preceded by exactly one
terminal condition: Completed=True when the phase is Succeeded, else
Failed=True — never both. -/
theorem pod_completed_override (obj : Obj) (pre post : List Obj) (e : Obj)
    (hsplit : GetConditions obj = pre ++ e :: post)
    (hpre : ∀ c ∈ pre, GetStringField c ".type" "" ≠ "Ready")
    (hpost : ∀ c ∈ post, GetStringField c ".type" "" ≠ "Ready")
    (hty : GetStringField e ".type" "" = "Ready")
    (hst : GetStringField e "status" "" = "False")
    (hrsn : GetStringField e "reason" "" = "PodCompleted") :
    podConditions obj =
      [(if GetStringField obj ".status.phase" "unknown" = "Succeeded" then
          NewCondition ConditionCompleted "Pod Succeeded"
        else
          NewCondition ConditionFailed
            ("Pod phase: " ++ GetStringField obj ".status.phase" "unknown")),
       ⟨ConditionReady, "True",
        "Phase: " ++ GetStringField obj ".status.phase" "unknown" ++ ", " ++ "PodCompleted"⟩] := by
  simp only [podConditions, hsplit]
  rw [podLoop_skip (GetStringField obj ".status.phase" "unknown") pre (e :: post) []
    (NewFalseCondition ConditionReady) hpre]
  simp only [podLoop]
  rw [if_pos hty, if_neg (by simp [hst]), hrsn, if_pos rfl]
  rw [podLoop_clean _ post _ _ hpost]
  simp [NewFalseCondition]

/-- C4 counterexample: a Pod whose conditions contain a
Ready/False/PodCompleted entry followed by a second Ready entry with
another reason ends with Ready=False (and a reason not built from
PodCompleted), even though the phase is Succeeded, refuting the claim
for snapshots that merely contain such an entry. -/
theorem pod_completed_override_cex :
    (∃ c ∈ GetConditions c4ex,
       GetStringField c ".type" "" = "Ready" ∧ GetStringField c "status" "" = "False" ∧
       GetStringField c "reason" "" = "PodCompleted") ∧
    GetStringField c4ex ".status.phase" "unknown" = "Succeeded" ∧
    GetCondition (podConditions c4ex) ConditionReady =
      some ⟨ConditionReady, "False", "Phase: Succeeded, crash"⟩ := by decide

/-- C4 witness: the single-Ready-entry PodCompleted pod with phase
Succeeded yields Completed=True plus Ready=True with the concatenated
reason. -/
theorem pod_completed_override_witness :
    podConditions c4wex =
      [⟨ConditionCompleted, "True", "Pod Succeeded"⟩,
       ⟨ConditionReady, "True", "Phase: Succeeded, PodCompleted"⟩] := by
  have h := pod_completed_override c4wex [] []
    [("type", Value.vStr "Ready"), ("status", Value.vStr "False"),
     ("reason", Value.vStr "PodCompleted")]
    rfl (by simp) (by simp) rfl rfl rfl
  exact h.trans (by decide)

/-- C5 (amended): the first condition entry, in encounter order, of
type Complete with status True or of type Failed with status True
decides the Job outcome: Complete yields Ready=True and Completed=True
with identical reasons, Failed yields Ready=True and Failed=True with
identical reasons; when no such entry exists, an absent or empty
status.startTime yields the single condition Ready=False "Job not
started", and a set startTime yields a single in-progress Ready=True. -/
theorem job_terminal_conditions (obj : Obj) :
    (∀ pre e post, GetConditions obj = pre ++ e :: post →
      (∀ c ∈ pre, ¬ jobTerminalTrue c) →
      GetStringField e ".status" "" = "True" →
      ((GetStringField e ".type" "" = "Complete" →
         jobConditions obj = [⟨ConditionReady, "True", jobCompleteMsg obj⟩,
                              ⟨ConditionCompleted, "True", jobCompleteMsg obj⟩]) ∧
       (GetStringField e ".type" "" = "Failed" →
         jobConditions obj = [⟨ConditionReady, "True", jobFailedMsg obj⟩,
                              ⟨ConditionFailed, "True", jobFailedMsg obj⟩]))) ∧
    ((∀ c ∈ GetConditions obj, ¬ jobTerminalTrue c) →
      ((GetStringField obj ".status.startTime" "" = "" →
         jobConditions obj = [⟨ConditionReady, "False", "Job not started"⟩]) ∧
       (GetStringField obj ".status.startTime" "" ≠ "" →
         jobConditions obj = [⟨ConditionReady, "True", jobProgressMsg obj⟩]))) := by
  constructor
  · intro pre e post hsplit hpre hst
    constructor
    · intro hty
      simp only [jobConditions, hsplit]
      rw [jobLoop_skip _ _ _ pre (e :: post) hpre]
      simp only [jobLoop]
      rw [if_pos hty, if_pos hst]
      rfl
    · intro hty
      simp only [jobConditions, hsplit]
      rw [jobLoop_skip _ _ _ pre (e :: post) hpre]
      simp only [jobLoop]
      rw [if_neg (by simp [hty]), if_pos hty, if_pos hst]
      rfl
  · intro hclean
    have hl := jobLoop_clean
      (GetIntField obj ".spec.completions" (GetIntField obj ".spec.parallelism" 1))
      (GetIntField obj ".status.succeeded" 0) (GetIntField obj ".status.failed" 0)
      (GetConditions obj) hclean
    constructor
    · intro hstart
      simp only [jobConditions, hl, hstart]
      rfl
    · intro hstart
      simp only [jobConditions, hl]
      rw [if_neg hstart]
      rfl

/-- C5 counterexample: a Job whose conditions list a Failed=True entry
before a Complete=True entry reports the Failed pair and emits no
Completed condition, refuting the unconditional Complete=True clause. -/
theorem job_terminal_conditions_cex :
    (∃ c ∈ GetConditions c5ex,
       GetStringField c ".type" "" = "Complete" ∧ GetStringField c ".status" "" = "True") ∧
    jobConditions c5ex =
      [⟨ConditionReady, "True", "Job Failed. failed: 0/1"⟩,
       ⟨ConditionFailed, "True", "Job Failed. failed: 0/1"⟩] ∧
    GetCondition (jobConditions c5ex) ConditionCompleted = none := by decide

/-- C5 witness: a Job with a single Complete=True entry yields the
Ready/Completed pair with one shared message, and a Job with no
conditions and no startTime yields Ready=False "Job not started". -/
theorem job_terminal_conditions_witness :
    jobConditions c5wex =
      [⟨ConditionReady, "True", "Job Completed. succeded: 0/1"⟩,
       ⟨ConditionCompleted, "True", "Job Completed. succeded: 0/1"⟩] ∧
    jobConditions ([] : Obj) = [⟨ConditionReady, "False", "Job not started"⟩] := by
  have h1 := ((job_terminal_conditions c5wex).1 []
      [("type", Value.vStr "Complete"), ("status", Value.vStr "True")] [] rfl
      (by simp) rfl).1 rfl
  have h2 := ((job_terminal_conditions ([] : Obj)).2 (by decide)).1 rfl
  exact ⟨h1.trans (by decide), h2⟩
